import Mathlib

/-!
Verification of the build-and-notify coordination engine of `cargo-leptos`
(`src/src/main.rs`): the message bus, shutdown flag, build pipeline
(`build_client`, `build_csr_or_ssr`, `build_all`), `send_reload`, the
ctrl-c interrupt task, and the `watch` loop.

External collaborators (`sass::run`, `wasm_pack::build`, `cargo::build`,
`cargo::run`, `Html::read`, `generate_html`, `generate_rust`,
`util::rm_dir_content`) are opaque fallible calls in the source; they are
modelled by an `Oracle` that fixes each call's success or failure, and the
pipeline functions record the sequence of collaborator invocations they
perform together with the overall success flag, mirroring `?`-propagation.
-/

namespace CargoLeptos

/-- The bus message type (`enum Msg` in `src/src/main.rs`). -/
inductive Msg where
  | ShutDown
  | SrcChanged
  | Reload (s : String)
deriving DecidableEq, Repr

/-- CLI options (`struct Opts`): `release`, `csr`, `verbose`. -/
structure Opts where
  release : Bool
  csr : Bool
  verbose : Nat
deriving DecidableEq, Repr, Inhabited

/-- The run configuration: the CLI options plus the derived index path
(the fields of `config::Config` that the core reads). -/
structure Config where
  cli : Opts
  index_path : String
deriving DecidableEq, Repr, Inhabited

/-- One collaborator invocation performed by the pipeline.
`wasmBuild b` records the `csr` value of the config passed to
`wasm_pack::build`; `genHtml` / `genRust` are `html.generate_html` /
`html.generate_rust`; `htmlRead` is `Html::read`; `rmDir` is
`util::rm_dir_content("target/site")`. -/
inductive Call where
  | rmDir
  | sass
  | htmlRead
  | wasmBuild (csr : Bool)
  | genHtml
  | genRust
  | cargoBuild
deriving DecidableEq, Repr

/-- Outcome oracle for one pipeline run: whether each collaborator call
succeeds.  `wasmBuildOk` depends on the config it is invoked with, since
`build_all` invokes `wasm_pack::build` with two different configs. -/
structure Oracle where
  rmDirOk : Bool
  sassOk : Bool
  htmlReadOk : Bool
  wasmBuildOk : Config → Bool
  genHtmlOk : Bool
  genRustOk : Bool
  cargoBuildOk : Bool

/-- A pipeline computation: the list of collaborator invocations made,
and whether the run succeeded (`Ok(())`) or failed (`Err` via `?`). -/
abbrev BuildRun := List Call × Bool

/-- One collaborator invocation with its oracle-given outcome. -/
def step (c : Call) (ok : Bool) : BuildRun := ([c], ok)

/-- Sequencing with `?`-propagation: run `b` only if `a` succeeded;
on failure of `a`, later stages are never invoked. -/
def andThen (a : BuildRun) (b : Unit → BuildRun) : BuildRun :=
  if a.2 then
    let r := b ()
    (a.1 ++ r.1, r.2)
  else a

/-- `build_client` (`src/src/main.rs:122`):
`sass::run?; Html::read?; if csr { wasm_pack::build?; generate_html? }
else { wasm_pack::build?; generate_rust? }`. -/
def build_client (o : Oracle) (c : Config) : BuildRun :=
  andThen (step .sass o.sassOk) fun _ =>
  andThen (step .htmlRead o.htmlReadOk) fun _ =>
  if c.cli.csr then
    andThen (step (.wasmBuild c.cli.csr) (o.wasmBuildOk c)) fun _ =>
    step .genHtml o.genHtmlOk
  else
    andThen (step (.wasmBuild c.cli.csr) (o.wasmBuildOk c)) fun _ =>
    step .genRust o.genRustOk

/-- `build_csr_or_ssr` (`src/src/main.rs:113`):
`rm_dir_content("target/site")?; build_client?;
if !csr { cargo::build? }; Ok(())`. -/
def build_csr_or_ssr (o : Oracle) (c : Config) : BuildRun :=
  andThen (step .rmDir o.rmDirOk) fun _ =>
  andThen (build_client o c) fun _ =>
  if !c.cli.csr then step .cargoBuild o.cargoBuildOk else ([], true)

/-- `build_all` (`src/src/main.rs:137`):
`rm_dir_content?; cargo::build?; sass::run?; Html::read?;
generate_html?; generate_rust?; let mut config = config.clone();
config.cli.csr = true; wasm_pack::build(&config)?;
config.cli.csr = false; wasm_pack::build(&config)?; Ok(())`.
Note: `cargo::build` is invoked unconditionally, before any `csr` test. -/
def build_all (o : Oracle) (c : Config) : BuildRun :=
  andThen (step .rmDir o.rmDirOk) fun _ =>
  andThen (step .cargoBuild o.cargoBuildOk) fun _ =>
  andThen (step .sass o.sassOk) fun _ =>
  andThen (step .htmlRead o.htmlReadOk) fun _ =>
  andThen (step .genHtml o.genHtmlOk) fun _ =>
  andThen (step .genRust o.genRustOk) fun _ =>
  let c1 : Config := { c with cli := { c.cli with csr := true } }
  andThen (step (.wasmBuild c1.cli.csr) (o.wasmBuildOk c1)) fun _ =>
  let c2 : Config := { c1 with cli := { c1.cli with csr := false } }
  step (.wasmBuild c2.cli.csr) (o.wasmBuildOk c2)

/-- The full stage sequence of one `build_csr_or_ssr` run (the trace when
every collaborator succeeds): clean output, style compilation, HTML
template read, client bundling (plus its artifact-generation substage),
then — unless csr — server compilation. -/
def fullSeq (c : Config) : List Call :=
  if c.cli.csr then
    [.rmDir, .sass, .htmlRead, .wasmBuild true, .genHtml]
  else
    [.rmDir, .sass, .htmlRead, .wasmBuild false, .genRust, .cargoBuild]

/-- All collaborator calls succeed. -/
def allOk (o : Oracle) : Prop :=
  o.rmDirOk = true ∧ o.sassOk = true ∧ o.htmlReadOk = true ∧
  (∀ c, o.wasmBuildOk c = true) ∧ o.genHtmlOk = true ∧
  o.genRustOk = true ∧ o.cargoBuildOk = true

/-- Is this call a client-bundle invocation (`wasm_pack::build`)? -/
def isBundle : Call → Bool
  | .wasmBuild _ => true
  | _ => false

/-- A concrete oracle where every collaborator succeeds. -/
def oracleTrue : Oracle :=
  ⟨true, true, true, fun _ => true, true, true, true⟩

/-- A concrete csr-mode config. -/
def cfgCsr : Config := ⟨⟨false, true, 0⟩, "index.html"⟩

/-- A concrete hydrate-mode config. -/
def cfgSsr : Config := ⟨⟨false, false, 0⟩, "index.html"⟩

theorem allOk_oracleTrue : allOk oracleTrue :=
  ⟨rfl, rfl, rfl, fun _ => rfl, rfl, rfl, rfl⟩

/-- Closed-form characterization of `build_csr_or_ssr`: the realized
invocation trace and success flag for every combination of collaborator
outcomes, read off the source's `?`-chain. -/
lemma bcs_eq (o : Oracle) (c : Config) :
    build_csr_or_ssr o c =
      if o.rmDirOk = false then ([.rmDir], false)
      else if o.sassOk = false then ([.rmDir, .sass], false)
      else if o.htmlReadOk = false then ([.rmDir, .sass, .htmlRead], false)
      else if o.wasmBuildOk c = false then
        ([.rmDir, .sass, .htmlRead, .wasmBuild c.cli.csr], false)
      else if c.cli.csr then
        ([.rmDir, .sass, .htmlRead, .wasmBuild true, .genHtml], o.genHtmlOk)
      else if o.genRustOk = false then
        ([.rmDir, .sass, .htmlRead, .wasmBuild false, .genRust], false)
      else ([.rmDir, .sass, .htmlRead, .wasmBuild false, .genRust, .cargoBuild],
            o.cargoBuildOk) := by
  cases hrm : o.rmDirOk <;> cases hsa : o.sassOk <;> cases hht : o.htmlReadOk <;>
    cases hcsr : c.cli.csr <;> cases hw : o.wasmBuildOk c <;>
    cases hgh : o.genHtmlOk <;> cases hgr : o.genRustOk <;>
    cases hcb : o.cargoBuildOk <;>
    simp [build_csr_or_ssr, build_client, andThen, step,
      hrm, hsa, hht, hcsr, hw, hgh, hgr, hcb]

/-- Every run's invocation trace is an initial segment of the fixed stage
sequence: stages are invoked in the fixed order and never out of it. -/
lemma bcs_trace_full (o : Oracle) (c : Config) :
    ∃ rest, (build_csr_or_ssr o c).1 ++ rest = fullSeq c := by
  rw [bcs_eq]
  cases hcsr : c.cli.csr <;> simp [fullSeq, hcsr] <;>
    split_ifs <;> exact ⟨_, rfl⟩

/-- When every collaborator succeeds, `build_csr_or_ssr` runs the whole
fixed sequence and succeeds. -/
lemma bcs_allOk (o : Oracle) (c : Config) (h : allOk o) :
    build_csr_or_ssr o c = (fullSeq c, true) := by
  obtain ⟨h1, h2, h3, h4, h5, h6, h7⟩ := h
  rw [bcs_eq]
  cases hcsr : c.cli.csr <;> simp [fullSeq, hcsr, h1, h2, h3, h4 c, h5, h6, h7]

/-- The full invocation trace of a successful `build_all` pass:
server compile unconditionally, then styles, template, both artifact
generators, then the client bundle twice (csr-toggled clone, then
toggled back). -/
def allSeq : List Call :=
  [.rmDir, .cargoBuild, .sass, .htmlRead, .genHtml, .genRust,
   .wasmBuild true, .wasmBuild false]

/-- When every collaborator succeeds, `build_all` performs `allSeq`. -/
lemma build_all_allOk (o : Oracle) (c : Config) (h : allOk o) :
    build_all o c = (allSeq, true) := by
  obtain ⟨h1, h2, h3, h4, h5, h6, h7⟩ := h
  simp [build_all, andThen, step, allSeq, h1, h2, h3, h4, h5, h6, h7]

/-- C4 counterexample: the `unless csr` rule does not govern the
build-everything pass.  With every collaborator succeeding and a csr-mode
config, `build_all` still performs one server-compile invocation
(`cargo::build` at `src/src/main.rs:140` is unconditional), where the
claim requires zero. -/
theorem c4_counterexample :
    cfgCsr.cli.csr = true ∧
    (build_all oracleTrue cfgCsr).1.count Call.cargoBuild = 1 := by
  decide

/-- C4 amended: for the per-cycle pipeline `build_csr_or_ssr`, the
server-compilation collaborator is invoked only when `Config.csr` is
false, and on a fully successful cycle csr mode performs exactly one
client-bundle invocation and zero server compiles while hydrate mode
performs exactly one of each; `build_all`, however, does not follow the
`unless csr` rule: a fully successful build-everything pass always
performs exactly one server-compile invocation (and two client-bundle
invocations) regardless of `csr`. -/
theorem c4_server_compile_iff_not_csr (o : Oracle) (c : Config) :
    (Call.cargoBuild ∈ (build_csr_or_ssr o c).1 → c.cli.csr = false) ∧
    (allOk o →
      ((build_csr_or_ssr o c).1.countP isBundle = 1 ∧
       (build_csr_or_ssr o c).1.count Call.cargoBuild =
         (if c.cli.csr then 0 else 1)) ∧
      ((build_all o c).1.count Call.cargoBuild = 1 ∧
       (build_all o c).1.countP isBundle = 2)) := by
  constructor
  · intro hmem
    cases hcsr : c.cli.csr
    · rfl
    · exfalso
      obtain ⟨rest, hr⟩ := bcs_trace_full o c
      have hfull : Call.cargoBuild ∈ fullSeq c := by
        rw [← hr]; exact List.mem_append_left _ hmem
      simp [fullSeq, hcsr] at hfull
  · intro h
    rw [bcs_allOk o c h, build_all_allOk o c h]
    cases hcsr : c.cli.csr <;> simp [fullSeq, allSeq, hcsr] <;> decide

/-- C4 witness: the amended statement evaluated in hydrate mode with an
all-succeeding oracle. -/
theorem c4_witness :
    ((build_csr_or_ssr oracleTrue cfgSsr).1.countP isBundle = 1 ∧
     (build_csr_or_ssr oracleTrue cfgSsr).1.count Call.cargoBuild =
       (if cfgSsr.cli.csr then 0 else 1)) ∧
    ((build_all oracleTrue cfgSsr).1.count Call.cargoBuild = 1 ∧
     (build_all oracleTrue cfgSsr).1.countP isBundle = 2) :=
  (c4_server_compile_iff_not_csr oracleTrue cfgSsr).2 allOk_oracleTrue

/-- C5: the pipeline executes its stages in the fixed order — clean
output, style compilation, HTML template read, client bundling (with its
artifact-generation substage), server compilation — every run's trace is
an initial segment of that fixed sequence; and it short-circuits on the
first failure: when the style-compilation collaborator fails, the run
returns failure having invoked nothing beyond clean-output and the style
compiler (no bundling, no server compile). -/
theorem c5_stage_order_short_circuit (o : Oracle) (c : Config) :
    (∃ rest, (build_csr_or_ssr o c).1 ++ rest = fullSeq c) ∧
    (o.rmDirOk = true → o.sassOk = false →
      build_csr_or_ssr o c = ([.rmDir, .sass], false)) := by
  refine ⟨bcs_trace_full o c, fun h1 h2 => ?_⟩
  rw [bcs_eq]
  simp [h1, h2]

/-- C5 witness: a run whose style compiler fails stops right after the
style stage. -/
theorem c5_witness :
    build_csr_or_ssr ⟨true, false, true, fun _ => true, true, true, true⟩ cfgCsr
      = ([.rmDir, .sass], false) :=
  (c5_stage_order_short_circuit ⟨true, false, true, fun _ => true, true, true, true⟩
    cfgCsr).2 rfl rfl

/-! ## Frame property of `build_all`'s clone-and-toggle (C8)

`build_all` receives `&Config`, calls `config.clone()` into a fresh local
`mut` binding and toggles `csr` on that clone only.  To make the frame
property observable, the configs live in an explicit heap of cells
(`List Config`, index = address): the borrowed original is at address
`a`, `clone()` allocates a fresh cell at the end of the heap, and the two
`config.cli.csr = …` assignments write that fresh cell. -/

/-- Heap of `Config` cells; an address is an index. -/
abbrev ConfigHeap := List Config

/-- `build_all` over an explicit config heap (`src/src/main.rs:137`):
stages before the clone read the original at address `a`; the clone is
allocated fresh; both csr toggles write only the clone's cell; the two
`wasm_pack::build` calls read the clone. -/
def build_all_heap (o : Oracle) (h : ConfigHeap) (a : Nat) :
    ConfigHeap × BuildRun :=
  let c := h.getD a default
  let pre :=
    andThen (step .rmDir o.rmDirOk) fun _ =>
    andThen (step .cargoBuild o.cargoBuildOk) fun _ =>
    andThen (step .sass o.sassOk) fun _ =>
    andThen (step .htmlRead o.htmlReadOk) fun _ =>
    andThen (step .genHtml o.genHtmlOk) fun _ =>
    step .genRust o.genRustOk
  if pre.2 = false then (h, pre)
  else
    let b := h.length
    let h1 := h ++ [c]
    let h2 := h1.set b { c with cli := { c.cli with csr := true } }
    let c1 := h2.getD b default
    let r1 := step (.wasmBuild c1.cli.csr) (o.wasmBuildOk c1)
    if r1.2 = false then (h2, (pre.1 ++ r1.1, false))
    else
      let h3 := h2.set b { c1 with cli := { c1.cli with csr := false } }
      let c2 := h3.getD b default
      let r2 := step (.wasmBuild c2.cli.csr) (o.wasmBuildOk c2)
      (h3, (pre.1 ++ r1.1 ++ r2.1, r2.2))

/-- C8: cloning the `Config` and toggling `csr` on the clone never
changes any pre-existing config cell: after `build_all`'s
clone-and-toggle sequence every address that existed before — in
particular the original config's — still holds exactly its old value, so
any holder of the original still reads its original `csr`. -/
theorem c8_clone_toggle_frame (o : Oracle) (h : ConfigHeap) (a j : Nat)
    (hj : j < h.length) :
    ((build_all_heap o h a).1)[j]? = h[j]? ∧
    (((build_all_heap o h a).1.getD j default).cli.csr
      = (h.getD j default).cli.csr) := by
  have key : ((build_all_heap o h a).1)[j]? = h[j]? := by
    simp only [build_all_heap]
    split
    · rfl
    · split
      · rw [List.getElem?_set_ne (Nat.ne_of_gt hj),
          List.getElem?_append_left hj]
      · rw [List.getElem?_set_ne (Nat.ne_of_gt hj),
          List.getElem?_set_ne (Nat.ne_of_gt hj),
          List.getElem?_append_left hj]
  refine ⟨key, ?_⟩
  simp only [List.getD, List.get?_eq_getElem?, key]

/-- C8 witness: a one-cell heap holding a hydrate-mode config; after a
full `build_all` pass the original cell is untouched. -/
theorem c8_witness :
    ((build_all_heap oracleTrue [cfgSsr] 0).1)[0]? = [cfgSsr][0]? ∧
    (((build_all_heap oracleTrue [cfgSsr] 0).1.getD 0 default).cli.csr
      = ([cfgSsr].getD 0 default).cli.csr) :=
  c8_clone_toggle_frame oracleTrue [cfgSsr] 0 0 (by decide)

/-! ## The event bus and the two publishers (C3)

`MSG_BUS` is a `tokio::sync::broadcast` channel.  Its `send` delivers the
message to every currently-registered receiver and — per tokio's
contract — returns `Err(SendError)` exactly when there are no active
receivers.  The bus is modelled as the global list of successfully
published messages plus the current receiver count at the moment of the
send. -/

/-- `MSG_BUS.send m` with `nRecv` active receivers: appends to the
publish log on success, errors when nobody is subscribed. -/
def busSend (nRecv : Nat) (log : List Msg) (m : Msg) :
    Except Unit (List Msg) :=
  if nRecv = 0 then .error () else .ok (log ++ [m])

/-- `send_reload` (`src/src/main.rs:106`): read `SHUTDOWN`; if not set,
send `Msg::Reload("reload")`; a send error is logged and swallowed — the
function always returns normally with the (possibly unchanged) log. -/
def send_reload (shutdown : Bool) (nRecv : Nat) (log : List Msg) :
    List Msg :=
  if !shutdown then
    match busSend nRecv log (Msg.Reload "reload") with
    | .ok l => l
    | .error _ => log
  else log

/-- The ctrl-c task (`src/src/main.rs:90`): set `SHUTDOWN`, then
`MSG_BUS.send(Msg::ShutDown).unwrap()`.  The first component is the flag
value written; the second is `some log` on a successful send and `none`
when the `unwrap` panics (send returned `Err`). -/
def ctrl_c_task (nRecv : Nat) (log : List Msg) :
    Bool × Option (List Msg) :=
  (true,
    match busSend nRecv log Msg.ShutDown with
    | .ok l => some l
    | .error _ => none)

/-- C3 counterexample: with zero active subscribers the interrupt
handler's `ShutDown` publish does not complete normally — the `unwrap`
at `src/src/main.rs:94` panics (modelled as `none`), contradicting the
claim that no publishing task fails or panics. -/
theorem c3_counterexample : (ctrl_c_task 0 []).2 = none := by decide

/-- C3 amended: publishing on the bus with zero active subscribers
returns an error rather than delivering.  The `Reload` publish path
(`send_reload`) handles that error — it logs, leaves the bus unchanged
and returns normally, so the watch task does not fail; with at least one
subscriber every publish completes normally and appends the message.
The interrupt handler's `ShutDown` publish, however, unwraps the send
result and panics when there are zero subscribers (the shutdown flag
having already been set). -/
theorem c3_zero_subscriber_publish (sd : Bool) (n : Nat) (log : List Msg)
    (m : Msg) :
    send_reload sd 0 log = log ∧
    busSend (n + 1) log m = .ok (log ++ [m]) ∧
    ctrl_c_task 0 log = (true, none) ∧
    ctrl_c_task (n + 1) log = (true, some (log ++ [Msg.ShutDown])) := by
  refine ⟨?_, rfl, rfl, rfl⟩
  cases sd <;> rfl

/-! ## Model A: the watch loop at statement granularity (C1, C6, C7, C9, C10)

`watch` (`src/src/main.rs:177`) loops:
`build_csr_or_ssr(config)?; send_reload(); (csr: subscribe+recv? |
hydrate: cargo::run?); if SHUTDOWN { break }`.

Each iteration of the model consumes, from a `WatchEnv`:
the realized pipeline run of that cycle (`build`), the `SHUTDOWN`
values returned by the loop's successive flag reads (`flag t` is the
t-th read; reads happen in program order, `2*i` at `send_reload` of
cycle `i` and `2*i+1` at the end-of-cycle check — the interrupt handler
may set the flag between any two reads), the number of active bus
receivers when cycle `i`'s reload send happens (`subs`), and the wait
phase's outcome (`wait i`): `some true` — the wait completed (csr: the
fresh subscriber received a message; hydrate: the app process exited
`Ok`), `some false` — the wait failed and its error propagates by `?`,
`none` — the wait never completes (no message ever reaches the fresh
subscriber / the app never exits). -/

/-- Observable loop events, each tagged with its cycle index. -/
inductive LEv where
  | stage (i : Nat) (c : Call)
  | built (i : Nat) (ok : Bool)
  | reloadSent (i : Nat)
  | reloadNoSub (i : Nat)
  | reloadSkip (i : Nat)
  | waited (i : Nat) (ok : Bool)
  | checked (i : Nat) (b : Bool)
  | subscribed (i k : Nat)
  | observedAt (i k : Nat) (m : Msg)
deriving DecidableEq, Repr

/-- The cycle an event belongs to. -/
def idx : LEv → Nat
  | .stage i _ => i
  | .built i _ => i
  | .reloadSent i => i
  | .reloadNoSub i => i
  | .reloadSkip i => i
  | .waited i _ => i
  | .checked i _ => i
  | .subscribed i _ => i
  | .observedAt i _ _ => i

/-- Environment of one watch session (collaborator outcomes, flag reads,
receiver counts, wait outcomes). -/
structure WatchEnv where
  build : Nat → BuildRun
  flag : Nat → Bool
  subs : Nat → Nat
  wait : Nat → Option Bool

/-- How a watch session ends: `done` — the loop broke at the shutdown
check and returned `Ok(())`; `err` — a `?` propagated an error out of
`watch`; `blocked` — the loop is suspended in a wait that never
completes; `fuelOut` — the model's fuel ran out with the loop still
running. -/
inductive WRes where
  | done
  | err
  | blocked
  | fuelOut
deriving DecidableEq, Repr

/-- The events of cycle `i`'s `Building` phase: one `stage` event per
collaborator invocation of the realized pipeline run, then the build's
outcome. -/
def blockPre (env : WatchEnv) (i : Nat) : List LEv :=
  (env.build i).1.map (LEv.stage i) ++ [LEv.built i (env.build i).2]

/-- The event of cycle `i`'s `send_reload` step: reads the flag (read
`2*i`); when unset, sends — which succeeds iff somebody is subscribed. -/
def reloadEv (env : WatchEnv) (i : Nat) : LEv :=
  if env.flag (2 * i) then .reloadSkip i
  else if env.subs i = 0 then .reloadNoSub i
  else .reloadSent i

/-- The watch loop (`src/src/main.rs:177`), fuel-bounded, starting at
cycle `i`: run the pipeline (`?` on failure), run `send_reload`, wait
(`?` on failure), then break iff the shutdown check reads true. -/
def watchA (env : WatchEnv) : Nat → Nat → List LEv × WRes
  | 0, _ => ([], .fuelOut)
  | fuel + 1, i =>
    if (env.build i).2 = false then (blockPre env i, .err)
    else
      match env.wait i with
      | none => (blockPre env i ++ [reloadEv env i], .blocked)
      | some false =>
          (blockPre env i ++ [reloadEv env i, .waited i false], .err)
      | some true =>
          if env.flag (2 * i + 1) then
            (blockPre env i ++
              [reloadEv env i, .waited i true, .checked i true], .done)
          else
            (blockPre env i ++
              [reloadEv env i, .waited i true, .checked i false]
              ++ (watchA env fuel (i + 1)).1,
             (watchA env fuel (i + 1)).2)

lemma mem_blockPre {env : WatchEnv} {i : Nat} {e : LEv}
    (h : e ∈ blockPre env i) :
    (∃ c, e = .stage i c) ∨ e = .built i (env.build i).2 := by
  simp only [blockPre, List.mem_append, List.mem_map,
    List.mem_singleton] at h
  rcases h with ⟨c, _, rfl⟩ | rfl
  · exact .inl ⟨c, rfl⟩
  · exact .inr rfl

lemma idx_blockPre {env : WatchEnv} {i : Nat} {e : LEv}
    (h : e ∈ blockPre env i) : idx e = i := by
  rcases mem_blockPre h with ⟨c, rfl⟩ | rfl <;> rfl

lemma built_mem_blockPre (env : WatchEnv) (i : Nat) :
    LEv.built i (env.build i).2 ∈ blockPre env i := by
  simp [blockPre]

lemma built_eq_of_mem_blockPre {env : WatchEnv} {i j : Nat} {b : Bool}
    (h : LEv.built j b ∈ blockPre env i) :
    j = i ∧ b = (env.build i).2 := by
  rcases mem_blockPre h with ⟨c, hc⟩ | hb
  · cases hc
  · cases hb; exact ⟨rfl, rfl⟩

lemma reload_not_mem_blockPre {env : WatchEnv} {i j : Nat} :
    LEv.reloadSent j ∉ blockPre env i := by
  intro h
  rcases mem_blockPre h with ⟨c, hc⟩ | hb
  · cases hc
  · cases hb

lemma reloadEv_cases (env : WatchEnv) (i : Nat) :
    reloadEv env i = .reloadSkip i ∨ reloadEv env i = .reloadNoSub i ∨
    reloadEv env i = .reloadSent i := by
  unfold reloadEv
  split_ifs <;> simp

lemma idx_reloadEv (env : WatchEnv) (i : Nat) :
    idx (reloadEv env i) = i := by
  rcases reloadEv_cases env i with h | h | h <;> rw [h] <;> rfl

lemma reloadEv_eq_sent {env : WatchEnv} {i j : Nat}
    (h : reloadEv env i = .reloadSent j) :
    i = j ∧ env.flag (2 * i) = false := by
  unfold reloadEv at h
  split_ifs at h with h1 h2
  cases h
  exact ⟨rfl, by simpa using h1⟩

/-- The wait-and-check events of cycle `i` after the reload step:
nothing if the wait never completes; a failed wait; or a completed wait
followed by the shutdown check (read `2*i+1`). -/
def midTail (env : WatchEnv) (i : Nat) : List LEv :=
  match env.wait i with
  | none => []
  | some false => [.waited i false]
  | some true => [.waited i true, .checked i (env.flag (2 * i + 1))]

/-- All events of cycle `i` after a successful build. -/
def midEvents (env : WatchEnv) (i : Nat) : List LEv :=
  reloadEv env i :: midTail env i

/-- Does the loop go on to cycle `i + 1`? -/
def continues (env : WatchEnv) (i : Nat) : Prop :=
  (env.build i).2 = true ∧ env.wait i = some true ∧
  env.flag (2 * i + 1) = false

instance (env : WatchEnv) (i : Nat) : Decidable (continues env i) := by
  unfold continues; infer_instance

/-- How the session ends when cycle `i` is its last (build succeeded). -/
def stopRes (env : WatchEnv) (i : Nat) : WRes :=
  match env.wait i with
  | none => .blocked
  | some false => .err
  | some true => .done

/-- One-cycle decomposition of the loop. -/
lemma watchA_succ_eq (env : WatchEnv) (fuel i : Nat) :
    watchA env (fuel + 1) i =
      if (env.build i).2 = false then (blockPre env i, .err)
      else if continues env i then
        (blockPre env i ++ midEvents env i ++ (watchA env fuel (i + 1)).1,
         (watchA env fuel (i + 1)).2)
      else (blockPre env i ++ midEvents env i, stopRes env i) := by
  rw [watchA]
  by_cases hok : (env.build i).2 = false
  · rw [if_pos hok, if_pos hok]
  · have hok' : (env.build i).2 = true := by simpa using hok
    rw [if_neg hok, if_neg hok]
    rcases hw : env.wait i with _ | b
    · simp [continues, midEvents, midTail, stopRes, hw]
    · cases b
      · simp [continues, midEvents, midTail, stopRes, hw]
      · by_cases hf : env.flag (2 * i + 1) = true
        · simp [continues, midEvents, midTail, stopRes, hw, hf]
        · have hf' : env.flag (2 * i + 1) = false := by simpa using hf
          simp [continues, midEvents, midTail, stopRes, hok', hw, hf']

lemma mem_midEvents {env : WatchEnv} {i : Nat} {e : LEv}
    (h : e ∈ midEvents env i) :
    e = reloadEv env i ∨ (∃ b, e = .waited i b) ∨ ∃ b, e = .checked i b := by
  rcases List.mem_cons.1 h with rfl | h
  · exact .inl rfl
  · unfold midTail at h
    rcases hw : env.wait i with _ | b <;> rw [hw] at h
    · cases h
    · cases b <;> simp at h
      · exact .inr (.inl ⟨false, h⟩)
      · rcases h with rfl | rfl
        · exact .inr (.inl ⟨true, rfl⟩)
        · exact .inr (.inr ⟨_, rfl⟩)

lemma idx_midEvents {env : WatchEnv} {i : Nat} {e : LEv}
    (h : e ∈ midEvents env i) : idx e = i := by
  rcases mem_midEvents h with rfl | ⟨b, rfl⟩ | ⟨b, rfl⟩
  · exact idx_reloadEv env i
  · rfl
  · rfl

lemma built_not_mem_midEvents {env : WatchEnv} {i j : Nat} {b : Bool} :
    LEv.built j b ∉ midEvents env i := by
  intro h
  rcases mem_midEvents h with he | ⟨c, he⟩ | ⟨c, he⟩
  · rcases reloadEv_cases env i with hr | hr | hr <;> rw [hr] at he <;> cases he
  · cases he
  · cases he

lemma sent_mem_midEvents {env : WatchEnv} {i j : Nat}
    (h : LEv.reloadSent j ∈ midEvents env i) :
    j = i ∧ env.flag (2 * i) = false := by
  rcases mem_midEvents h with he | ⟨c, he⟩ | ⟨c, he⟩
  · obtain ⟨hij, hf⟩ := reloadEv_eq_sent he.symm
    exact ⟨hij.symm ▸ rfl, hf⟩
  · cases he
  · cases he

/-- Every event of a run starting at cycle `i₀` belongs to cycle `i₀` or
later. -/
lemma watchA_idx_ge (env : WatchEnv) :
    ∀ fuel i₀ e, e ∈ (watchA env fuel i₀).1 → i₀ ≤ idx e := by
  intro fuel
  induction fuel with
  | zero => intro i₀ e h; simp [watchA] at h
  | succ fuel ih =>
    intro i₀ e h
    rw [watchA_succ_eq] at h
    split_ifs at h with hok hcont
    · exact (idx_blockPre h).ge
    · rcases List.mem_append.1 h with h1 | h1
      · rcases List.mem_append.1 h1 with h2 | h2
        · exact (idx_blockPre h2).ge
        · exact (idx_midEvents h2).ge
      · exact Nat.le_of_succ_le (ih (i₀ + 1) e h1)
    · rcases List.mem_append.1 h with h1 | h1
      · exact (idx_blockPre h1).ge
      · exact (idx_midEvents h1).ge

lemma built_mem_rest {env : WatchEnv} {i₀ i : Nat} {rest : List LEv}
    (hij : i ≠ i₀)
    (h : LEv.built i true ∈ blockPre env i₀ ++ midEvents env i₀ ++ rest) :
    LEv.built i true ∈ rest := by
  rcases List.mem_append.1 h with h1 | h1
  · rcases List.mem_append.1 h1 with h2 | h2
    · exact absurd (built_eq_of_mem_blockPre h2).1 hij
    · exact absurd h2 built_not_mem_midEvents
  · exact h1

/-- A failed build of cycle `i` ends the session: the run's result is
`err`, every event belongs to cycle `i` or earlier (no later cycle ever
starts — no retry), and no reload is published in cycle `i` or later. -/
lemma watchA_built_false (env : WatchEnv) :
    ∀ fuel i₀ i, LEv.built i false ∈ (watchA env fuel i₀).1 →
      (watchA env fuel i₀).2 = .err ∧
      (∀ e ∈ (watchA env fuel i₀).1, idx e ≤ i) ∧
      (∀ j, i ≤ j → LEv.reloadSent j ∉ (watchA env fuel i₀).1) := by
  intro fuel
  induction fuel with
  | zero => intro i₀ i h; simp [watchA] at h
  | succ fuel ih =>
    intro i₀ i h
    rw [watchA_succ_eq] at h ⊢
    split_ifs at h ⊢ with hok hcont
    · obtain ⟨rfl, -⟩ := built_eq_of_mem_blockPre h
      exact ⟨rfl, fun e he => (idx_blockPre he).le,
        fun j hj hm => reload_not_mem_blockPre hm⟩
    · have hok' : (env.build i₀).2 = true := by simpa using hok
      have h1 : LEv.built i false ∈ (watchA env fuel (i₀ + 1)).1 := by
        rcases List.mem_append.1 h with h1 | h1
        · rcases List.mem_append.1 h1 with h2 | h2
          · obtain ⟨-, hb⟩ := built_eq_of_mem_blockPre h2
            rw [hok'] at hb; cases hb
          · exact absurd h2 built_not_mem_midEvents
        · exact h1
      obtain ⟨hres, hbound, hnos⟩ := ih (i₀ + 1) i h1
      have hlt : i₀ + 1 ≤ i := by
        have hg := watchA_idx_ge env fuel (i₀ + 1) _ h1
        simpa [idx] using hg
      refine ⟨hres, ?_, ?_⟩
      · intro e he
        rcases List.mem_append.1 he with he1 | he1
        · rcases List.mem_append.1 he1 with he2 | he2
          · exact (idx_blockPre he2).le.trans (Nat.le_of_succ_le hlt)
          · exact (idx_midEvents he2).le.trans (Nat.le_of_succ_le hlt)
        · exact hbound e he1
      · intro j hj hm
        rcases List.mem_append.1 hm with hm1 | hm1
        · rcases List.mem_append.1 hm1 with hm2 | hm2
          · exact reload_not_mem_blockPre hm2
          · obtain ⟨rfl, -⟩ := sent_mem_midEvents hm2
            omega
        · exact hnos j hj hm1
    · have hok' : (env.build i₀).2 = true := by simpa using hok
      rcases List.mem_append.1 h with h1 | h1
      · obtain ⟨-, hb⟩ := built_eq_of_mem_blockPre h1
        rw [hok'] at hb; cases hb
      · exact absurd h1 built_not_mem_midEvents

/-- A published reload implies the same cycle's build succeeded and the
`send_reload` guard (flag read `2*i`) returned false. -/
lemma watchA_sent_mem (env : WatchEnv) :
    ∀ fuel i₀ i, LEv.reloadSent i ∈ (watchA env fuel i₀).1 →
      LEv.built i true ∈ (watchA env fuel i₀).1 ∧
      env.flag (2 * i) = false := by
  intro fuel
  induction fuel with
  | zero => intro i₀ i h; simp [watchA] at h
  | succ fuel ih =>
    intro i₀ i h
    rw [watchA_succ_eq] at h ⊢
    split_ifs at h ⊢ with hok hcont
    · exact absurd h reload_not_mem_blockPre
    · have hok' : (env.build i₀).2 = true := by simpa using hok
      rcases List.mem_append.1 h with h1 | h1
      · rcases List.mem_append.1 h1 with h2 | h2
        · exact absurd h2 reload_not_mem_blockPre
        · obtain ⟨rfl, hf⟩ := sent_mem_midEvents h2
          refine ⟨List.mem_append_left _ (List.mem_append_left _ ?_), hf⟩
          have hb := built_mem_blockPre env i
          rwa [hok'] at hb
      · obtain ⟨hb, hf⟩ := ih (i₀ + 1) i h1
        exact ⟨List.mem_append_right _ hb, hf⟩
    · have hok' : (env.build i₀).2 = true := by simpa using hok
      rcases List.mem_append.1 h with h1 | h1
      · exact absurd h1 reload_not_mem_blockPre
      · obtain ⟨rfl, hf⟩ := sent_mem_midEvents h1
        refine ⟨List.mem_append_left _ ?_, hf⟩
        have hb := built_mem_blockPre env i
        rwa [hok'] at hb

/-- The `send_reload` step event of cycle `i` (published, failed send,
or skipped because the shutdown flag was set). -/
def isAttempt (i : Nat) : LEv → Bool
  | .reloadSent j => i == j
  | .reloadNoSub j => i == j
  | .reloadSkip j => i == j
  | _ => false

lemma isAttempt_idx {i : Nat} {e : LEv} (h : isAttempt i e = true) :
    idx e = i := by
  cases e <;> simp [isAttempt] at h <;> simp [idx, h]

lemma countP_blockPre (env : WatchEnv) (i j : Nat) :
    (blockPre env j).countP (isAttempt i) = 0 := by
  apply List.countP_eq_zero.2
  intro e he hA
  rcases mem_blockPre he with ⟨c, rfl⟩ | rfl <;> simp [isAttempt] at hA

lemma countP_midEvents (env : WatchEnv) (i j : Nat) :
    (midEvents env j).countP (isAttempt i) = if i = j then 1 else 0 := by
  unfold midEvents
  rw [List.countP_cons]
  have h1 : (midTail env j).countP (isAttempt i) = 0 := by
    apply List.countP_eq_zero.2
    intro e he hA
    unfold midTail at he
    rcases hw : env.wait j with _ | b <;> rw [hw] at he
    · cases he
    · cases b <;> simp at he
      · subst he; simp [isAttempt] at hA
      · rcases he with rfl | rfl <;> simp [isAttempt] at hA
  have h2 : isAttempt i (reloadEv env j) = (i == j) := by
    rcases reloadEv_cases env j with hr | hr | hr <;> rw [hr] <;> rfl
  rw [h1, h2]
  by_cases hij : i = j <;> simp [hij]

lemma countP_watchA_lt (env : WatchEnv) (fuel i i₀ : Nat) (h : i < i₀) :
    ((watchA env fuel i₀).1).countP (isAttempt i) = 0 := by
  apply List.countP_eq_zero.2
  intro e he hA
  have h1 := watchA_idx_ge env fuel i₀ e he
  rw [isAttempt_idx hA] at h1
  omega

/-- A successful build of cycle `i` is followed by exactly one
`send_reload` step for cycle `i` in the whole session. -/
lemma watchA_attempt_count (env : WatchEnv) :
    ∀ fuel i₀ i, LEv.built i true ∈ (watchA env fuel i₀).1 →
      ((watchA env fuel i₀).1).countP (isAttempt i) = 1 := by
  intro fuel
  induction fuel with
  | zero => intro i₀ i h; simp [watchA] at h
  | succ fuel ih =>
    intro i₀ i h
    rw [watchA_succ_eq] at h ⊢
    split_ifs at h ⊢ with hok hcont
    · obtain ⟨-, hb⟩ := built_eq_of_mem_blockPre h
      rw [hok] at hb; cases hb
    · have hok' : (env.build i₀).2 = true := by simpa using hok
      by_cases hij : i = i₀
      · subst hij
        show (blockPre env i ++ midEvents env i
          ++ (watchA env fuel (i + 1)).1).countP (isAttempt i) = 1
        rw [List.countP_append, List.countP_append, countP_blockPre,
          countP_midEvents,
          countP_watchA_lt env fuel i (i + 1) (Nat.lt_succ_self i)]
        simp
      · have h1 := built_mem_rest hij h
        show (blockPre env i₀ ++ midEvents env i₀
          ++ (watchA env fuel (i₀ + 1)).1).countP (isAttempt i) = 1
        rw [List.countP_append, List.countP_append, countP_blockPre,
          countP_midEvents, ih (i₀ + 1) i h1]
        simp [hij]
    · have hok' : (env.build i₀).2 = true := by simpa using hok
      have hii : i = i₀ := by
        rcases List.mem_append.1 h with h1 | h1
        · exact (built_eq_of_mem_blockPre h1).1
        · exact absurd h1 built_not_mem_midEvents
      subst hii
      show (blockPre env i ++ midEvents env i).countP (isAttempt i) = 1
      rw [List.countP_append, countP_blockPre, countP_midEvents]
      simp

/-- After a successful build of cycle `i`, the `send_reload` step event
immediately follows the build-outcome event in the trace: the reload
publish is attempted before the wait phase. -/
lemma watchA_attempt_follows (env : WatchEnv) :
    ∀ fuel i₀ i, LEv.built i true ∈ (watchA env fuel i₀).1 →
      ∃ l₁ l₂, (watchA env fuel i₀).1
        = l₁ ++ LEv.built i true :: reloadEv env i :: l₂ := by
  intro fuel
  induction fuel with
  | zero => intro i₀ i h; simp [watchA] at h
  | succ fuel ih =>
    intro i₀ i h
    rw [watchA_succ_eq] at h ⊢
    split_ifs at h ⊢ with hok hcont
    · obtain ⟨-, hb⟩ := built_eq_of_mem_blockPre h
      rw [hok] at hb; cases hb
    · have hok' : (env.build i₀).2 = true := by simpa using hok
      by_cases hij : i = i₀
      · subst hij
        refine ⟨(env.build i).1.map (LEv.stage i),
          midTail env i ++ (watchA env fuel (i + 1)).1, ?_⟩
        show blockPre env i ++ midEvents env i
          ++ (watchA env fuel (i + 1)).1 = _
        simp [blockPre, midEvents, hok', List.append_assoc]
      · have h1 := built_mem_rest hij h
        obtain ⟨l₁, l₂, hl⟩ := ih (i₀ + 1) i h1
        refine ⟨blockPre env i₀ ++ midEvents env i₀ ++ l₁, l₂, ?_⟩
        show blockPre env i₀ ++ midEvents env i₀
          ++ (watchA env fuel (i₀ + 1)).1 = _
        rw [hl]
        simp [List.append_assoc]
    · have hok' : (env.build i₀).2 = true := by simpa using hok
      have hii : i = i₀ := by
        rcases List.mem_append.1 h with h1 | h1
        · exact (built_eq_of_mem_blockPre h1).1
        · exact absurd h1 built_not_mem_midEvents
      subst hii
      refine ⟨(env.build i).1.map (LEv.stage i), midTail env i, ?_⟩
      show blockPre env i ++ midEvents env i = _
      simp [blockPre, midEvents, hok']

/-- Once set, a monotone flag stays set: the interrupt handler writes
`true` exactly once and nothing ever clears the flag. -/
lemma flag_true_from {env : WatchEnv} {t : Nat}
    (hm : ∀ s, env.flag s = true → env.flag (s + 1) = true)
    (ht : env.flag t = true) :
    ∀ s, t ≤ s → env.flag s = true := by
  intro s hs
  induction hs with
  | refl => exact ht
  | step h ih => exact hm _ ih

/-- C1: a `Reload` publish happens only in a cycle whose build
succeeded; once a build fails, no reload is published in that or any
later cycle of the session; and a successful build is followed by
exactly one `send_reload` step, placed immediately after the build
outcome — before the wait phase. -/
theorem c1_reload_iff_build_success (env : WatchEnv) (fuel i : Nat) :
    (LEv.reloadSent i ∈ (watchA env fuel 0).1 →
        LEv.built i true ∈ (watchA env fuel 0).1) ∧
    (LEv.built i false ∈ (watchA env fuel 0).1 →
        ∀ j, i ≤ j → LEv.reloadSent j ∉ (watchA env fuel 0).1) ∧
    (LEv.built i true ∈ (watchA env fuel 0).1 →
        ((watchA env fuel 0).1).countP (isAttempt i) = 1 ∧
        ∃ l₁ l₂, (watchA env fuel 0).1
          = l₁ ++ LEv.built i true :: reloadEv env i :: l₂) :=
  ⟨fun h => (watchA_sent_mem env fuel 0 i h).1,
   fun h => (watchA_built_false env fuel 0 i h).2.2,
   fun h => ⟨watchA_attempt_count env fuel 0 i h,
     watchA_attempt_follows env fuel 0 i h⟩⟩

/-- Environment for the C1 witness: the real csr pipeline, always
succeeding; one bus subscriber; the flag set after the first check. -/
def envC1 : WatchEnv :=
  ⟨fun _ => build_csr_or_ssr oracleTrue cfgCsr,
   fun t => decide (1 ≤ t), fun _ => 1, fun _ => some true⟩

/-- C1 witness: the published reload of cycle 0 implies cycle 0 built
successfully. -/
theorem c1_witness : LEv.built 0 true ∈ (watchA envC1 1 0).1 :=
  (c1_reload_iff_build_success envC1 1 0).1 (by decide)

/-- C6: a build failure in any cycle terminates the whole watch session
with that error (`watch` returns `Err`), and no event of any later cycle
occurs — there is no automatic retry of a failed build. -/
theorem c6_build_failure_terminates (env : WatchEnv) (fuel i : Nat)
    (h : LEv.built i false ∈ (watchA env fuel 0).1) :
    (watchA env fuel 0).2 = .err ∧
    ∀ e ∈ (watchA env fuel 0).1, idx e ≤ i :=
  ⟨(watchA_built_false env fuel 0 i h).1,
   (watchA_built_false env fuel 0 i h).2.1⟩

/-- Oracle whose style-compilation collaborator fails. -/
def oracleSassFail : Oracle :=
  ⟨true, false, true, fun _ => true, true, true, true⟩

/-- Environment for the C6 witness: every cycle's build fails at the
style stage. -/
def envC6 : WatchEnv :=
  ⟨fun _ => build_csr_or_ssr oracleSassFail cfgCsr,
   fun _ => false, fun _ => 1, fun _ => some true⟩

/-- C6 witness: the session with a failing style stage ends in error. -/
theorem c6_witness : (watchA envC6 1 0).2 = .err :=
  (c6_build_failure_terminates envC6 1 0 (by decide)).1

/-- Bound on the cycles run after the shutdown flag is set, assuming
every wait phase completes. -/
lemma watchA_shutdown_gen (env : WatchEnv) {t : Nat}
    (hm : ∀ s, env.flag s = true → env.flag (s + 1) = true)
    (ht : env.flag t = true)
    (hw : ∀ i, env.wait i = some true) :
    ∀ fuel i₀, i₀ ≤ t / 2 → t / 2 < i₀ + fuel →
      ((watchA env fuel i₀).2 = .done ∨ (watchA env fuel i₀).2 = .err) ∧
      ∀ e ∈ (watchA env fuel i₀).1, idx e ≤ t / 2 := by
  intro fuel
  induction fuel with
  | zero => intro i₀ h1 h2; exact absurd h2 (by omega)
  | succ fuel ih =>
    intro i₀ h1 h2
    rw [watchA_succ_eq]
    by_cases hok : (env.build i₀).2 = false
    · rw [if_pos hok]
      exact ⟨.inr rfl, fun e he => (idx_blockPre he).le.trans h1⟩
    · rw [if_neg hok]
      by_cases hcont : continues env i₀
      · obtain ⟨hb, hwt, hff⟩ := hcont
        have hlt : 2 * i₀ + 1 < t := by
          by_contra hge
          have hft : env.flag (2 * i₀ + 1) = true :=
            flag_true_from hm ht _ (by omega)
          rw [hff] at hft; cases hft
        rw [if_pos ⟨hb, hwt, hff⟩]
        obtain ⟨hres, hbound⟩ := ih (i₀ + 1) (by omega) (by omega)
        refine ⟨hres, ?_⟩
        intro e he
        rcases List.mem_append.1 he with he1 | he1
        · rcases List.mem_append.1 he1 with he2 | he2
          · exact (idx_blockPre he2).le.trans h1
          · exact (idx_midEvents he2).le.trans h1
        · exact hbound e he1
      · rw [if_neg hcont]
        refine ⟨.inl ?_, ?_⟩
        · show stopRes env i₀ = .done
          unfold stopRes
          rw [hw i₀]
        · intro e he
          rcases List.mem_append.1 he with he1 | he1
          · exact (idx_blockPre he1).le.trans h1
          · exact (idx_midEvents he1).le.trans h1

/-- C7 amended: provided every wait phase completes, once the shutdown
flag is set at flag-read `t` the loop terminates (normally, or with a
build error) and runs at most one additional full build-and-wait cycle:
every event belongs to a cycle of index at most `t / 2`. -/
theorem c7_shutdown_terminates_bounded (env : WatchEnv) (fuel t : Nat)
    (hm : ∀ s, env.flag s = true → env.flag (s + 1) = true)
    (ht : env.flag t = true)
    (hw : ∀ i, env.wait i = some true)
    (hfuel : t / 2 < fuel) :
    ((watchA env fuel 0).2 = .done ∨ (watchA env fuel 0).2 = .err) ∧
    ∀ e ∈ (watchA env fuel 0).1, idx e ≤ t / 2 :=
  watchA_shutdown_gen env hm ht hw fuel 0 (Nat.zero_le _) (by omega)

/-- Environment for the C7 witness. -/
def envC7 : WatchEnv :=
  ⟨fun _ => build_csr_or_ssr oracleTrue cfgCsr,
   fun t => decide (1 ≤ t), fun _ => 1, fun _ => some true⟩

/-- C7 witness: flag set at read 1 (mid-cycle 0), waits complete — the
session ends within the cycle. -/
theorem c7_witness :
    (watchA envC7 1 0).2 = .done ∨ (watchA envC7 1 0).2 = .err :=
  (c7_shutdown_terminates_bounded envC7 1 1
    (by intro s h; simp [envC7]) (by decide) (fun _ => rfl)
    (by decide)).1

/-- Does the trace contain direct evidence of a fatal failure: a failed
build or a failed wait? -/
def errEvidence (ev : List LEv) : Bool :=
  ev.any fun e =>
    match e with
    | .built _ false => true
    | .waited _ false => true
    | _ => false

lemma watchA_err_source (env : WatchEnv) :
    ∀ fuel i₀, (watchA env fuel i₀).2 = .err →
      ∃ i, LEv.built i false ∈ (watchA env fuel i₀).1 ∨
           LEv.waited i false ∈ (watchA env fuel i₀).1 := by
  intro fuel
  induction fuel with
  | zero => intro i₀ h; simp [watchA] at h
  | succ fuel ih =>
    intro i₀ h
    rw [watchA_succ_eq] at h ⊢
    split_ifs at h ⊢ with hok hcont
    · refine ⟨i₀, .inl ?_⟩
      have hb := built_mem_blockPre env i₀
      rwa [hok] at hb
    · have h' : (watchA env fuel (i₀ + 1)).2 = .err := h
      obtain ⟨i, hc⟩ := ih (i₀ + 1) h'
      exact ⟨i, hc.imp (List.mem_append_right _) (List.mem_append_right _)⟩
    · have h' : stopRes env i₀ = .err := h
      unfold stopRes at h'
      rcases hw : env.wait i₀ with _ | b <;> rw [hw] at h'
      · cases h'
      · cases b
        · refine ⟨i₀, .inr (List.mem_append_right _ ?_)⟩
          simp [midEvents, midTail, hw]
        · cases h'

/-- C9 amended: a bus error on the `Reload` publish is not fatal —
`send_reload` logs and swallows it, and the loop proceeds to the wait
phase.  The watch session ends in error only when a build fails or the
wait phase fails; a run that ends in `Err` always carries a failed-build
or failed-wait event in its trace. -/
theorem c9_reload_publish_failure_not_fatal (env : WatchEnv) (fuel : Nat)
    (h : (watchA env fuel 0).2 = .err) :
    errEvidence (watchA env fuel 0).1 = true := by
  obtain ⟨i, hc⟩ := watchA_err_source env fuel 0 h
  rcases hc with hm | hm <;> exact List.any_eq_true.2 ⟨_, hm, rfl⟩

/-- Environment for the C9 counterexample: builds succeed but the bus
has zero subscribers at every reload send, so every publish fails. -/
def envC9 : WatchEnv :=
  ⟨fun _ => build_csr_or_ssr oracleTrue cfgCsr,
   fun t => decide (3 ≤ t), fun _ => 0, fun _ => some true⟩

/-- C9 counterexample: cycle 0's reload publish fails with a bus error,
yet the session does not terminate with that error — the loop runs a
full second cycle and ends normally (`done`), contradicting the claim
that a failed reload publish terminates the session. -/
theorem c9_counterexample :
    LEv.reloadNoSub 0 ∈ (watchA envC9 2 0).1 ∧
    LEv.built 1 true ∈ (watchA envC9 2 0).1 ∧
    (watchA envC9 2 0).2 = .done := by
  decide

/-- Environment for the C9 witness: a failing build makes the session
end in error; the trace then carries the failed-build evidence. -/
def envC9w : WatchEnv :=
  ⟨fun _ => build_csr_or_ssr oracleSassFail cfgCsr,
   fun _ => false, fun _ => 1, fun _ => some true⟩

/-- C9 witness. -/
theorem c9_witness : errEvidence (watchA envC9w 1 0).1 = true :=
  c9_reload_publish_failure_not_fatal envC9w 1 (by decide)

/-- C10: once the shutdown flag is set (read `t` and monotonically ever
after), no cycle whose `send_reload` guard reads at or after `t`
publishes a reload: a successful build completing after shutdown was
requested produces no reload notification. -/
theorem c10_no_reload_after_shutdown (env : WatchEnv) (fuel t i : Nat)
    (hm : ∀ s, env.flag s = true → env.flag (s + 1) = true)
    (ht : env.flag t = true) (hti : t ≤ 2 * i) :
    LEv.reloadSent i ∉ (watchA env fuel 0).1 := by
  intro hmem
  have hf := (watchA_sent_mem env fuel 0 i hmem).2
  have hft := flag_true_from hm ht (2 * i) hti
  rw [hf] at hft
  cases hft

/-- Environment for the C10 witness: flag set from read 2 on — cycle 1
builds successfully but publishes no reload. -/
def envC10 : WatchEnv :=
  ⟨fun _ => build_csr_or_ssr oracleTrue cfgCsr,
   fun t => decide (2 ≤ t), fun _ => 1, fun _ => some true⟩

/-- C10 witness. -/
theorem c10_witness : LEv.reloadSent 1 ∉ (watchA envC10 3 0).1 :=
  c10_no_reload_after_shutdown envC10 3 2 1
    (by intro s h; simp [envC10] at h ⊢; omega) (by decide) (by decide)

/-! ## Model B: the watch loop interleaved with the bus (C2, C7)

The same `watch` loop at instruction granularity, interleaved with steps
of the other tasks.  The broadcast bus is the global list of published
messages (`log`); a receiver is a cursor into it — per tokio broadcast,
`MSG_BUS.subscribe()` records the current log length and `recv` returns
the message at the cursor when one exists, i.e. a receiver observes only
messages published after its subscription, and suspends otherwise.  The
loop in csr mode subscribes afresh at each wait
(`MSG_BUS.subscribe().recv()`, `src/src/main.rs:182`). -/

/-- The loop task's program counter. -/
inductive PC where
  | building (rest : List Call) (ok : Bool)
  | reloading
  | subscribing
  | receiving (cursor : Nat)
  | running
  | checking
  | finished (ok : Bool)
deriving DecidableEq, Repr

/-- Global state: the loop's position, the current cycle, the bus
publish log, the shutdown flag, and the emitted events. -/
structure BState where
  pc : PC
  cycle : Nat
  log : List Msg
  flag : Bool
  ev : List LEv
deriving DecidableEq, Repr

/-- Machine parameters: the mode, the realized pipeline run per cycle,
the external receiver count at each cycle's reload send, and the
hydrate-mode app exit result per cycle. -/
structure BParams where
  csr : Bool
  build : Nat → BuildRun
  subs : Nat → Nat
  appOk : Nat → Bool

/-- The event emitted by the `send_reload` step (`src/src/main.rs:106`):
flag set — nothing sent; no receivers — the send errors, logged and
ignored; otherwise the `Reload` message is published. -/
def reloadEvB (p : BParams) (s : BState) : LEv :=
  if s.flag then .reloadSkip s.cycle
  else if p.subs s.cycle = 0 then .reloadNoSub s.cycle
  else .reloadSent s.cycle

/-- One step of the watch-loop task. -/
def stepLoop (p : BParams) (s : BState) : BState :=
  match s.pc with
  | .building (c :: rest) ok =>
      { s with pc := .building rest ok, ev := s.ev ++ [.stage s.cycle c] }
  | .building [] ok =>
      if ok then
        { s with pc := .reloading, ev := s.ev ++ [.built s.cycle true] }
      else
        { s with pc := .finished false, ev := s.ev ++ [.built s.cycle false] }
  | .reloading =>
      { s with pc := if p.csr then .subscribing else .running,
               log := if s.flag = false ∧ p.subs s.cycle ≠ 0 then
                        s.log ++ [Msg.Reload "reload"]
                      else s.log,
               ev := s.ev ++ [reloadEvB p s] }
  | .subscribing =>
      { s with pc := .receiving s.log.length,
               ev := s.ev ++ [.subscribed s.cycle s.log.length] }
  | .receiving cursor =>
      match s.log[cursor]? with
      | some m =>
          { s with pc := .checking,
                   ev := s.ev ++ [.observedAt s.cycle cursor m] }
      | none => s
  | .running =>
      { s with pc := if p.appOk s.cycle then .checking else .finished false,
               ev := s.ev ++ [.waited s.cycle (p.appOk s.cycle)] }
  | .checking =>
      if s.flag then
        { s with pc := .finished true, ev := s.ev ++ [.checked s.cycle true] }
      else
        { s with
            pc := .building (p.build (s.cycle + 1)).1 (p.build (s.cycle + 1)).2,
            cycle := s.cycle + 1,
            ev := s.ev ++ [.checked s.cycle false] }
  | .finished _ => s

/-- A step of the whole system: the loop task runs (`tick`), another
task publishes on the bus (`pub`: the file watcher's `SrcChanged`, the
interrupt handler's `ShutDown`), or the interrupt handler sets the
shutdown flag (`setFlag`). -/
inductive SStep where
  | tick
  | pub (m : Msg)
  | setFlag
deriving DecidableEq, Repr

def stepOf (p : BParams) (s : BState) : SStep → BState
  | .tick => stepLoop p s
  | .pub m => { s with log := s.log ++ [m] }
  | .setFlag => { s with flag := true }

/-- Run a schedule of interleaved steps. -/
def runB (p : BParams) (s : BState) : List SStep → BState
  | [] => s
  | a :: rest => runB p (stepOf p s a) rest

/-- Initial state: cycle 0 about to build, empty bus, flag clear. -/
def initB (p : BParams) : BState :=
  { pc := .building (p.build 0).1 (p.build 0).2, cycle := 0, log := [],
    flag := false, ev := [] }

/-- The stage events of cycle `i`, in order. -/
def stageEvts (i : Nat) (ev : List LEv) : List Call :=
  ev.filterMap fun e =>
    match e with
    | .stage j c => if j = i then some c else none
    | _ => none

lemma stageEvts_append (i : Nat) (l₁ l₂ : List LEv) :
    stageEvts i (l₁ ++ l₂) = stageEvts i l₁ ++ stageEvts i l₂ := by
  simp [stageEvts, List.filterMap_append]

lemma getElem?_append_of_some {α : Type} {l l' : List α} {k : Nat} {m : α}
    (h : l[k]? = some m) : (l ++ l')[k]? = some m := by
  have hk : k < l.length := by
    by_contra hge
    rw [List.getElem?_eq_none (Nat.le_of_not_lt hge)] at h
    cases h
  rw [List.getElem?_append_left hk]
  exact h

/-- Machine invariant: completed cycles emitted exactly their realized
pipeline stages in order; the in-flight cycle has emitted a prefix with
the pending stages remaining; future cycles have emitted nothing; a
receiving cursor was recorded by a subscription event; and every
observation returns exactly the message at its subscription cursor. -/
structure BInv (p : BParams) (s : BState) : Prop where
  past : ∀ i, i < s.cycle → stageEvts i s.ev = (p.build i).1
  future : ∀ i, s.cycle < i → stageEvts i s.ev = []
  cur : ∀ rest ok, s.pc = .building rest ok →
    stageEvts s.cycle s.ev ++ rest = (p.build s.cycle).1
  curDone : (∀ rest ok, s.pc ≠ .building rest ok) →
    stageEvts s.cycle s.ev = (p.build s.cycle).1
  subCursor : ∀ k, s.pc = .receiving k → LEv.subscribed s.cycle k ∈ s.ev
  obs : ∀ i k m, LEv.observedAt i k m ∈ s.ev →
    LEv.subscribed i k ∈ s.ev ∧ s.log[k]? = some m

lemma stageEvts_stage_ne {i j : Nat} (c : Call) (hne : j ≠ i) :
    stageEvts i [.stage j c] = [] := by
  simp [stageEvts, hne]

lemma stageEvts_stage_eq (i : Nat) (c : Call) :
    stageEvts i [.stage i c] = [c] := by
  simp [stageEvts]

lemma stageEvts_single_other (i : Nat) {e : LEv}
    (h : ∀ j c, e ≠ .stage j c) : stageEvts i [e] = [] := by
  cases e with
  | stage j c => exact absurd rfl (h j c)
  | built j b => rfl
  | reloadSent j => rfl
  | reloadNoSub j => rfl
  | reloadSkip j => rfl
  | waited j b => rfl
  | checked j b => rfl
  | subscribed j k => rfl
  | observedAt j k m => rfl

lemma stageEvts_append_other (i : Nat) (l : List LEv) {e : LEv}
    (h : ∀ j c, e ≠ .stage j c) :
    stageEvts i (l ++ [e]) = stageEvts i l := by
  rw [stageEvts_append, stageEvts_single_other i h, List.append_nil]

lemma mem_append_singleton {e e' : LEv} {l : List LEv}
    (h : e ∈ l ++ [e']) : e ∈ l ∨ e = e' := by
  rcases List.mem_append.1 h with h | h
  · exact .inl h
  · exact .inr (List.mem_singleton.1 h)

/-- Lifting the observation invariant over an appended non-observation
event. -/
lemma obs_lift {lg : List Msg} {ev : List LEv}
    (hobs : ∀ i k m, LEv.observedAt i k m ∈ ev →
      LEv.subscribed i k ∈ ev ∧ lg[k]? = some m)
    {e : LEv} (he : ∀ i k m, e ≠ LEv.observedAt i k m) :
    ∀ i k m, LEv.observedAt i k m ∈ ev ++ [e] →
      LEv.subscribed i k ∈ ev ++ [e] ∧ lg[k]? = some m := by
  intro i k m hm
  rcases mem_append_singleton hm with hm | hm
  · obtain ⟨h1, h2⟩ := hobs i k m hm
    exact ⟨List.mem_append_left _ h1, h2⟩
  · exact absurd hm.symm (he i k m)

lemma reloadEvB_ne_stage (p : BParams) (s : BState) :
    ∀ j c, reloadEvB p s ≠ .stage j c := by
  intro j c
  unfold reloadEvB
  split_ifs <;> intro hh <;> cases hh

lemma reloadEvB_ne_obs (p : BParams) (s : BState) :
    ∀ i k m, reloadEvB p s ≠ .observedAt i k m := by
  intro i k m
  unfold reloadEvB
  split_ifs <;> intro hh <;> cases hh

lemma getElem?_ite_append {C : Prop} [Decidable C] {lg : List Msg} {r : Msg}
    {k : Nat} {m : Msg} (h : lg[k]? = some m) :
    (if C then lg ++ [r] else lg)[k]? = some m := by
  split
  · exact getElem?_append_of_some h
  · exact h

/-- The invariant is preserved by every system step. -/
lemma BInv_stepOf {p : BParams} {s : BState} (h : BInv p s) (a : SStep) :
    BInv p (stepOf p s a) := by
  obtain ⟨pc, cyc, lg, fl, ev⟩ := s
  cases a with
  | pub m =>
      exact ⟨h.past, h.future, h.cur, h.curDone, h.subCursor,
        fun i k m' hm =>
          ⟨(h.obs i k m' hm).1, getElem?_append_of_some (h.obs i k m' hm).2⟩⟩
  | setFlag => exact ⟨h.past, h.future, h.cur, h.curDone, h.subCursor, h.obs⟩
  | tick =>
      cases pc with
      | building rest ok =>
          cases rest with
          | cons c rest =>
              show BInv p ⟨.building rest ok, cyc, lg, fl,
                ev ++ [.stage cyc c]⟩
              refine ⟨?_, ?_, ?_, ?_, ?_, ?_⟩
              · intro i hi
                rw [stageEvts_append, stageEvts_stage_ne c (Nat.ne_of_gt hi),
                  List.append_nil]
                exact h.past i hi
              · intro i hi
                rw [stageEvts_append, stageEvts_stage_ne c (Nat.ne_of_lt hi),
                  List.append_nil]
                exact h.future i hi
              · intro rest' ok' hpc'
                cases hpc'
                rw [stageEvts_append, stageEvts_stage_eq, List.append_assoc]
                exact h.cur (c :: rest) ok rfl
              · intro hne
                exact absurd rfl (hne rest ok)
              · intro k hpc'
                cases hpc'
              · exact obs_lift h.obs (fun i k m hh => by cases hh)
          | nil =>
              cases ok with
              | true =>
                  show BInv p ⟨.reloading, cyc, lg, fl,
                    ev ++ [.built cyc true]⟩
                  refine ⟨?_, ?_, ?_, ?_, ?_, ?_⟩
                  · intro i hi
                    rw [stageEvts_append_other i ev (fun j c hh => by cases hh)]
                    exact h.past i hi
                  · intro i hi
                    rw [stageEvts_append_other i ev (fun j c hh => by cases hh)]
                    exact h.future i hi
                  · intro rest' ok' hpc'
                    cases hpc'
                  · intro hne
                    rw [stageEvts_append_other cyc ev (fun j c hh => by cases hh)]
                    simpa using h.cur [] true rfl
                  · intro k hpc'
                    cases hpc'
                  · exact obs_lift h.obs (fun i k m hh => by cases hh)
              | false =>
                  show BInv p ⟨.finished false, cyc, lg, fl,
                    ev ++ [.built cyc false]⟩
                  refine ⟨?_, ?_, ?_, ?_, ?_, ?_⟩
                  · intro i hi
                    rw [stageEvts_append_other i ev (fun j c hh => by cases hh)]
                    exact h.past i hi
                  · intro i hi
                    rw [stageEvts_append_other i ev (fun j c hh => by cases hh)]
                    exact h.future i hi
                  · intro rest' ok' hpc'
                    cases hpc'
                  · intro hne
                    rw [stageEvts_append_other cyc ev (fun j c hh => by cases hh)]
                    simpa using h.cur [] false rfl
                  · intro k hpc'
                    cases hpc'
                  · exact obs_lift h.obs (fun i k m hh => by cases hh)
      | reloading =>
          show BInv p ⟨if p.csr then .subscribing else .running, cyc,
            if fl = false ∧ p.subs cyc ≠ 0 then lg ++ [Msg.Reload "reload"]
            else lg,
            fl, ev ++ [reloadEvB p ⟨.reloading, cyc, lg, fl, ev⟩]⟩
          refine ⟨?_, ?_, ?_, ?_, ?_, ?_⟩
          · intro i hi
            rw [stageEvts_append_other i ev (reloadEvB_ne_stage p _)]
            exact h.past i hi
          · intro i hi
            rw [stageEvts_append_other i ev (reloadEvB_ne_stage p _)]
            exact h.future i hi
          · intro rest' ok' hpc'
            split_ifs at hpc'
          · intro hne
            rw [stageEvts_append_other cyc ev (reloadEvB_ne_stage p _)]
            exact h.curDone (fun rest ok hh => by cases hh)
          · intro k hpc'
            split_ifs at hpc'
          · intro i k m hm
            rcases mem_append_singleton hm with hm | hm
            · obtain ⟨h1, h2⟩ := h.obs i k m hm
              exact ⟨List.mem_append_left _ h1, getElem?_ite_append h2⟩
            · exact absurd hm.symm (reloadEvB_ne_obs p _ i k m)
      | subscribing =>
          show BInv p ⟨.receiving lg.length, cyc, lg, fl,
            ev ++ [.subscribed cyc lg.length]⟩
          refine ⟨?_, ?_, ?_, ?_, ?_, ?_⟩
          · intro i hi
            rw [stageEvts_append_other i ev (fun j c hh => by cases hh)]
            exact h.past i hi
          · intro i hi
            rw [stageEvts_append_other i ev (fun j c hh => by cases hh)]
            exact h.future i hi
          · intro rest' ok' hpc'
            cases hpc'
          · intro hne
            rw [stageEvts_append_other cyc ev (fun j c hh => by cases hh)]
            exact h.curDone (fun rest ok hh => by cases hh)
          · intro k hpc'
            cases hpc'
            exact List.mem_append_right _ (List.mem_singleton.2 rfl)
          · exact obs_lift h.obs (fun i k m hh => by cases hh)
      | receiving cursor =>
          rcases hget : lg[cursor]? with _ | m
          · have hstep : stepOf p ⟨.receiving cursor, cyc, lg, fl, ev⟩
                SStep.tick = ⟨.receiving cursor, cyc, lg, fl, ev⟩ := by
              simp only [stepOf, stepLoop, hget]
            rw [hstep]
            exact ⟨h.past, h.future, h.cur, h.curDone, h.subCursor, h.obs⟩
          · have hstep : stepOf p ⟨.receiving cursor, cyc, lg, fl, ev⟩
                SStep.tick = ⟨.checking, cyc, lg, fl,
                  ev ++ [.observedAt cyc cursor m]⟩ := by
              simp only [stepOf, stepLoop, hget]
            rw [hstep]
            refine ⟨?_, ?_, ?_, ?_, ?_, ?_⟩
            · intro i hi
              rw [stageEvts_append_other i ev (fun j c hh => by cases hh)]
              exact h.past i hi
            · intro i hi
              rw [stageEvts_append_other i ev (fun j c hh => by cases hh)]
              exact h.future i hi
            · intro rest' ok' hpc'
              cases hpc'
            · intro hne
              rw [stageEvts_append_other cyc ev (fun j c hh => by cases hh)]
              exact h.curDone (fun rest ok hh => by cases hh)
            · intro k hpc'
              cases hpc'
            · intro i k m' hm
              rcases mem_append_singleton hm with hm | hm
              · obtain ⟨h1, h2⟩ := h.obs i k m' hm
                exact ⟨List.mem_append_left _ h1, h2⟩
              · cases hm
                exact ⟨List.mem_append_left _ (h.subCursor cursor rfl), hget⟩
      | running =>
          show BInv p ⟨if p.appOk cyc then .checking else .finished false,
            cyc, lg, fl, ev ++ [.waited cyc (p.appOk cyc)]⟩
          refine ⟨?_, ?_, ?_, ?_, ?_, ?_⟩
          · intro i hi
            rw [stageEvts_append_other i ev (fun j c hh => by cases hh)]
            exact h.past i hi
          · intro i hi
            rw [stageEvts_append_other i ev (fun j c hh => by cases hh)]
            exact h.future i hi
          · intro rest' ok' hpc'
            split_ifs at hpc'
          · intro hne
            rw [stageEvts_append_other cyc ev (fun j c hh => by cases hh)]
            exact h.curDone (fun rest ok hh => by cases hh)
          · intro k hpc'
            split_ifs at hpc'
          · exact obs_lift h.obs (fun i k m hh => by cases hh)
      | checking =>
          cases fl with
          | true =>
              show BInv p ⟨.finished true, cyc, lg, true,
                ev ++ [.checked cyc true]⟩
              refine ⟨?_, ?_, ?_, ?_, ?_, ?_⟩
              · intro i hi
                rw [stageEvts_append_other i ev (fun j c hh => by cases hh)]
                exact h.past i hi
              · intro i hi
                rw [stageEvts_append_other i ev (fun j c hh => by cases hh)]
                exact h.future i hi
              · intro rest' ok' hpc'
                cases hpc'
              · intro hne
                rw [stageEvts_append_other cyc ev (fun j c hh => by cases hh)]
                exact h.curDone (fun rest ok hh => by cases hh)
              · intro k hpc'
                cases hpc'
              · exact obs_lift h.obs (fun i k m hh => by cases hh)
          | false =>
              show BInv p ⟨.building (p.build (cyc + 1)).1
                  (p.build (cyc + 1)).2, cyc + 1, lg, false,
                ev ++ [.checked cyc false]⟩
              refine ⟨?_, ?_, ?_, ?_, ?_, ?_⟩
              · intro i hi
                rw [stageEvts_append_other i ev (fun j c hh => by cases hh)]
                rcases Nat.lt_succ_iff_lt_or_eq.1 hi with hi' | rfl
                · exact h.past i hi'
                · exact h.curDone (fun rest ok hh => by cases hh)
              · intro i hi
                rw [stageEvts_append_other i ev (fun j c hh => by cases hh)]
                exact h.future i (Nat.lt_of_succ_lt hi)
              · intro rest' ok' hpc'
                cases hpc'
                rw [stageEvts_append_other (cyc + 1) ev
                  (fun j c hh => by cases hh),
                  h.future (cyc + 1) (Nat.lt_succ_self cyc)]
                rfl
              · intro hne
                exact absurd rfl (hne _ _)
              · intro k hpc'
                cases hpc'
              · exact obs_lift h.obs (fun i k m hh => by cases hh)
      | finished ok =>
          exact ⟨h.past, h.future, h.cur, h.curDone, h.subCursor, h.obs⟩

lemma BInv_runB (p : BParams) :
    ∀ sched s, BInv p s → BInv p (runB p s sched) := by
  intro sched
  induction sched with
  | nil => intro s h; exact h
  | cons a rest ih => intro s h; exact ih _ (BInv_stepOf h a)

lemma BInv_initB (p : BParams) : BInv p (initB p) := by
  show BInv p ⟨.building (p.build 0).1 (p.build 0).2, 0, [], false, []⟩
  refine ⟨?_, ?_, ?_, ?_, ?_, ?_⟩
  · intro i hi
    exact absurd hi (Nat.not_lt_zero i)
  · intro i hi
    rfl
  · intro rest ok hpc'
    cases hpc'
    rfl
  · intro hne
    exact absurd rfl (hne _ _)
  · intro k hpc'
    cases hpc'
  · intro i k m hm
    simp at hm

/-- C2 amended: whatever other tasks publish and whenever, each cycle's
stage events always form a prefix, in order, of that cycle's realized
pipeline run — published events never preempt or reorder the in-flight
build; and the wait phase observes precisely the message sitting at its
own subscription cursor, i.e. only a message published at or after the
wait's `subscribe()`.  A `SourceChanged` published mid-build lies below
the cursor and is therefore never observed by the watch loop (it is lost
to the loop, not queued for it). -/
theorem c2_midbuild_events (p : BParams) (sched : List SStep) (i k : Nat)
    (m : Msg) :
    (∃ l, stageEvts i (runB p (initB p) sched).ev ++ l = (p.build i).1) ∧
    (LEv.observedAt i k m ∈ (runB p (initB p) sched).ev →
      LEv.subscribed i k ∈ (runB p (initB p) sched).ev ∧
      ((runB p (initB p) sched).log)[k]? = some m) := by
  have hinv := BInv_runB p sched (initB p) (BInv_initB p)
  refine ⟨?_, fun hm => hinv.obs i k m hm⟩
  rcases Nat.lt_trichotomy i (runB p (initB p) sched).cycle with hlt | heq | hgt
  · exact ⟨[], by rw [hinv.past i hlt, List.append_nil]⟩
  · by_cases hb : ∃ rest ok, (runB p (initB p) sched).pc = .building rest ok
    · obtain ⟨rest, ok, hpc⟩ := hb
      exact ⟨rest, by rw [heq]; exact hinv.cur rest ok hpc⟩
    · push_neg at hb
      refine ⟨[], ?_⟩
      rw [heq, List.append_nil]
      exact hinv.curDone hb
  · exact ⟨(p.build i).1, by rw [hinv.future i hgt]; rfl⟩

/-- Machine parameters for the C2/C7 schedules: csr watch mode, the real
csr pipeline succeeding every cycle, one external bus receiver. -/
def pB : BParams :=
  ⟨true, fun _ => build_csr_or_ssr oracleTrue cfgCsr, fun _ => 1,
   fun _ => true⟩

/-- Number of wait-phase observations in a trace. -/
def obsCount (ev : List LEv) : Nat :=
  ev.countP fun e =>
    match e with
    | .observedAt _ _ _ => true
    | _ => false

/-- Schedule for the C2 counterexample: `SrcChanged` is published after
three build stages — mid-build — and the loop then finishes the build,
publishes its reload, subscribes and waits. -/
def schedC2 : List SStep :=
  [.tick, .tick, .tick, .pub Msg.SrcChanged, .tick, .tick, .tick, .tick,
   .tick, .tick]

/-- C2 counterexample: the mid-build `SrcChanged` sits in the bus log
below the wait's subscription cursor; the wait observes nothing and the
loop step is a fixpoint — the loop is permanently blocked and never
observes the event, contradicting the claim that it is observed during
the immediately following wait. -/
theorem c2_counterexample :
    (runB pB (initB pB) schedC2).pc = .receiving 2 ∧
    Msg.SrcChanged ∈ (runB pB (initB pB) schedC2).log ∧
    obsCount (runB pB (initB pB) schedC2).ev = 0 ∧
    stepLoop pB (runB pB (initB pB) schedC2)
      = runB pB (initB pB) schedC2 := by
  decide

/-- Schedule for the C2 witness: a `SrcChanged` published after the
wait's subscription is observed at the subscription cursor. -/
def schedW : List SStep :=
  [.tick, .tick, .tick, .tick, .tick, .tick, .tick, .tick,
   .pub Msg.SrcChanged, .tick]

/-- C2 witness. -/
theorem c2_witness :
    LEv.subscribed 0 1 ∈ (runB pB (initB pB) schedW).ev ∧
    ((runB pB (initB pB) schedW).log)[1]? = some Msg.SrcChanged :=
  (c2_midbuild_events pB schedW 0 1 Msg.SrcChanged).2 (by decide)

/-- Schedule for the C7 counterexample: ctrl-c arrives mid-build — the
flag is set and `ShutDown` published after two build stages; the loop
finishes the build, skips the reload (flag set), subscribes — after the
`ShutDown` message — and waits. -/
def schedC7 : List SStep :=
  [.tick, .tick, .setFlag, .pub Msg.ShutDown, .tick, .tick, .tick, .tick,
   .tick, .tick, .tick]

/-- C7 counterexample: the shutdown flag is set mid-build in csr mode,
yet the loop does not terminate within one cycle boundary: the
`ShutDown` bus message precedes the wait's subscription cursor, the wait
blocks forever (the loop step is a fixpoint with the flag set), and the
loop never reaches its shutdown check. -/
theorem c7_counterexample :
    (runB pB (initB pB) schedC7).flag = true ∧
    (runB pB (initB pB) schedC7).pc = .receiving 1 ∧
    stepLoop pB (runB pB (initB pB) schedC7)
      = runB pB (initB pB) schedC7 := by
  decide

end CargoLeptos
